import Mathlib

/-!
# Verification of the datalyze-core ingestion-and-query subsystem

Shallow embedding of the TypeScript sources of the `datalyze-core`
repository (services/sqliteService, services/llmService, services/s3Service)
together with proofs and refutations of the specification claims about them.

Modelling conventions:
* JavaScript runtime values are embedded as the inductive `JSValue`;
  JavaScript numbers are modelled as rationals, with `Number.isInteger`
  corresponding to denominator 1.
* The sqlite engine is modelled at the statement level: a database file is a
  list of named tables, each carrying its declared column list and its rows.
  node-sqlite3's queueing discipline is modelled explicitly: a statement
  issued without a completion callback whose execution fails reports the
  failure out of band (an `error` event) — the failure is *not* delivered to
  the code that queued the statement, and later queued statements still run.
* The local file system is modelled as the list of existing paths.
* External collaborators (blob store, record store, csv/json parsers, the
  text-completion oracle) are modelled as explicit parameters carrying their
  outcome, mirroring the spec's "external collaborator" boundary.
-/

set_option autoImplicit false

namespace Datalyze

/-! ## JavaScript values and sqlite storage classes -/

/-- The five sqlite storage classes, as in the `IColumnDefinition.type` union
of `services/sqliteService/types.ts`. -/
inductive SqlType where
  | TEXT
  | INTEGER
  | REAL
  | BLOB
  | NULL
deriving DecidableEq, Repr

/-- Embedding of the JavaScript values that can reach the ingestion pipeline.
Numbers are rationals (`Number.isInteger` ⟷ denominator 1); `vBuffer` stands
for a Node `Buffer`; `vObj` keeps fields in `Object.entries` order. -/
inductive JSValue where
  | vNull
  | vUndefined
  | vNum (q : ℚ)
  | vStr (s : String)
  | vBool (b : Bool)
  | vBuffer (bytes : List Nat)
  | vObj (fields : List (String × JSValue))
  | vArr (elems : List JSValue)

/-- `SqliteService.inferColumnType` (services/sqliteService/index.ts, lines
57–67), branch for branch:
null/undefined → NULL; number → INTEGER when integral else REAL;
string → TEXT; boolean → INTEGER; Buffer → BLOB; anything else → TEXT. -/
def inferColumnType : JSValue → SqlType
  | .vNull => .NULL
  | .vUndefined => .NULL
  | .vNum q => if q.den = 1 then .INTEGER else .REAL
  | .vStr _ => .TEXT
  | .vBool _ => .INTEGER
  | .vBuffer _ => .BLOB
  | .vObj _ => .TEXT
  | .vArr _ => .TEXT

/-! ## Column and table definitions -/

/-- `IColumnDefinition` from services/sqliteService/types.ts.  The optional
`defaultValue` is kept as an optional JS value. -/
structure ColumnDefinition where
  name : String
  type : SqlType
  primaryKey : Bool := false
  notNull : Bool := false
  uniqueFlag : Bool := false
  defaultValue : Option JSValue := none

/-- `ITableDefinition` from services/sqliteService/types.ts. -/
structure TableDefinition where
  name : String
  columns : List ColumnDefinition

/-- The synthetic primary-key column pushed first by
`inferColumnsFromObject`. -/
def idColumn : ColumnDefinition :=
  { name := "id", type := .INTEGER, primaryKey := true }

/-- The loop body of `SqliteService.inferColumnsFromObject`
(services/sqliteService/index.ts, lines 236–243): iterate over
`Object.entries(obj)` in order, `if (!key) continue;` (a string key is falsy
exactly when it is empty), otherwise push `{name: key, type: inferColumnType
value}`. -/
def inferColumnsLoop : List (String × JSValue) → List ColumnDefinition
  | [] => []
  | (key, value) :: rest =>
      if key = "" then inferColumnsLoop rest
      else { name := key, type := inferColumnType value } :: inferColumnsLoop rest

/-- `SqliteService.inferColumnsFromObject` (services/sqliteService/index.ts,
lines 227–246): push the synthetic `id` column, then one column per
(non-empty-named) entry of the representative record. -/
def inferColumnsFromObject (obj : List (String × JSValue)) : List ColumnDefinition :=
  idColumn :: inferColumnsLoop obj

/-! ## SQL Extraction Protocol

`LLMService.extractSqlQueryAndTile` (services/llmService/index.ts, lines
160–170) runs the regular expression ```` /```([^\n]+) sql\n([\s\S]*?)```/gi ````
over the oracle reply and destructures the first match.  The matcher below is
a direct model of that regular expression on character lists:

* a match starts with three backticks;
* the first capture `[^\n]+` is greedy and must be followed by the literal
  `" sql"` (case-insensitive, the regex has the `i` flag and no `u` flag, so
  only ASCII case folding applies) and a newline — hence the whole opening
  fence line must end in `" sql"` and the capture is that line minus its last
  four characters;
* the second capture `[\s\S]*?` is lazy, so the body ends at the first
  occurrence of three backticks after the newline;
* `matchAll` yields matches left to right, and the code uses `matches[0]`,
  the leftmost one. -/

/-- JavaScript `String.prototype.trim`: strip whitespace from both ends
(modelled with ASCII whitespace, which covers every character occurring in
replies of interest). -/
def jsTrim (l : List Char) : List Char :=
  ((l.dropWhile Char.isWhitespace).reverse.dropWhile Char.isWhitespace).reverse

/-- Three backticks, the fence delimiter of the extraction regex. -/
def tick3 : List Char := ['`', '`', '`']

/-- Recognizer for the four characters that must end the opening fence line:
a space followed by `sql` up to ASCII case. -/
def isSqlSep (l : List Char) : Bool :=
  match l with
  | [a, b, c, d] =>
      a = ' ' && (b = 's' || b = 'S') && (c = 'q' || c = 'Q') && (d = 'l' || d = 'L')
  | _ => false

/-- Lazy search for the earliest occurrence of three backticks: returns the
(shortest) part before it and the part after it. -/
def findTriple : List Char → Option (List Char × List Char)
  | [] => none
  | c :: rest =>
      if c = '`' ∧ rest.take 2 = ['`', '`'] then some ([], rest.drop 2)
      else (findTriple rest).map fun p => (c :: p.1, p.2)

/-- Attempt of the extraction regex at one fixed start position: on success,
returns the two captures (title, body). -/
def matchAt (s : List Char) : Option (List Char × List Char) :=
  if s.take 3 = tick3 then
    let rest := s.drop 3
    let line := rest.takeWhile (· ≠ '\n')
    let after := rest.dropWhile (· ≠ '\n')
    if 5 ≤ line.length ∧ isSqlSep (line.drop (line.length - 4)) ∧ after ≠ [] then
      (findTriple after.tail).map fun p => (line.take (line.length - 4), p.1)
    else none
  else none

/-- Leftmost match of the extraction regex (`matches[0]` of `matchAll`). -/
def firstMatch : List Char → Option (List Char × List Char)
  | [] => none
  | c :: rest =>
      match matchAt (c :: rest) with
      | some r => some r
      | none => firstMatch rest

/-- `LLMService.extractSqlQueryAndTile` as committed in
services/llmService/index.ts (lines 160–170):
`const [_, title, sqlQuery] = matches[0];` destructures `matches[0]` without
a guard, so when the reply has no match the destructuring of `undefined`
throws a `TypeError`, modelled as `Except.error ()`.  When a match exists,
`if (sqlQuery)` is the JavaScript truthiness test, i.e. the body capture must
be a nonempty string; otherwise both outputs are `undefined`. -/
def extractSqlQueryAndTile (content : String) :
    Except Unit (Option String × Option String) :=
  match firstMatch content.data with
  | none => .error ()
  | some (title, sqlQuery) =>
      if sqlQuery ≠ [] then
        .ok (some (String.mk (jsTrim title)), some (String.mk (jsTrim sqlQuery)))
      else
        .ok (none, none)

/-- The variant of `extractSqlQueryAndTile` found in the other snapshot of
the same service shipped in the repository (src/unnamed/part_002, lines
138–147), which guards the destructuring with
`const [_, title, sqlQuery] = matches[0] ?? [];` and therefore returns both
outputs absent instead of throwing when there is no match. -/
def extractSqlQueryAndTileGuarded (content : String) :
    Option String × Option String :=
  match firstMatch content.data with
  | none => (none, none)
  | some (title, sqlQuery) =>
      if sqlQuery ≠ [] then
        (some (String.mk (jsTrim title)), some (String.mk (jsTrim sqlQuery)))
      else
        (none, none)

/-! ### Specification-side characterization of a fenced sql block

`HeadBlock s t q` says: the text `s` begins, at its very first character,
with a fenced block whose opening fence line is `t` followed by a
space-separated `sql` token (case-insensitive), whose body is `q`, and whose
body is the shortest one (the closing fence is the first triple of backticks
after the opening line).  This is a pure decomposition statement about the
text, independent of the matcher. -/

/-- The body `q` is lazy-minimal: no decomposition of `q ++ tick3 ++ rest`
around a backtick triple has a shorter part before the triple. -/
def LazyBody (q rest : List Char) : Prop :=
  ∀ a b, q ++ tick3 ++ rest = a ++ tick3 ++ b → q.length ≤ a.length

/-- `s` carries, at position 0, a fenced block with title token(s) `t` and
body `q` as matched by the extraction protocol. -/
def HeadBlock (s t q : List Char) : Prop :=
  ∃ sep rest,
    s = tick3 ++ t ++ sep ++ '\n' :: (q ++ tick3 ++ rest) ∧
    isSqlSep sep = true ∧ t ≠ [] ∧ '\n' ∉ t ∧ LazyBody q rest

/-! ## Statement-level model of the sqlite engine under node-sqlite3

`jsonToSqlite` and `csvToSqlite` (services/sqliteService/index.ts, lines
69–190) queue statements with `db.run(...)` inside one `db.serialize` block.
Only the final `COMMIT` is given a completion callback; every other `db.run`
is fire-and-forget, so an engine failure of one of those statements is
reported through an `error` event and never reaches the promise's
resolve/reject logic, and the statements queued after it still execute.  The
executor below models exactly that: it applies statements in order,
collecting the out-of-band failures, and never stops early. -/

/-- An ingested row: column name to (already serialized) value. -/
abbrev Row := List (String × JSValue)

/-- One table inside a database file: its declared columns and its rows. -/
structure DBTable where
  schema : List ColumnDefinition
  rows : List Row

/-- A database file: named tables in creation order. -/
abbrev DBState := List (String × DBTable)

/-- The statements the ingestion pipeline queues. -/
inductive SqlStmt where
  | beginTx
  | createTable (t : TableDefinition)
  | insertRow (table : String) (row : Row)
  | commitTx
  | rollbackTx

def lookupTable (db : DBState) (name : String) : Option DBTable :=
  (db.find? (fun nt => nt.1 = name)).map Prod.snd

def addRowToTable (db : DBState) (name : String) (row : Row) : DBState :=
  db.map fun nt =>
    if nt.1 = name then (nt.1, { nt.2 with rows := nt.2.rows ++ [row] }) else nt

/-- A name interpolated into `"..."` without escaping keeps the generated
statement text well-formed exactly when it contains no `"` character. -/
def identOk (s : String) : Bool := !s.data.contains '"'

/-- A `DEFAULT` clause interpolated as plain `${value}` text (single-quoted
only for strings) renders a well-formed SQL literal when the value is
absent (the `!== undefined` guard skips the clause), a number, a boolean,
`null`, or a string free of the single-quote character (Char 39, which
would close the generated `'...'` early); an object, array or buffer
renders as `[object Object]`-style text and breaks the statement. -/
def defaultLiteralOk : Option JSValue → Bool
  | none => true
  | some .vUndefined => true
  | some .vNull => true
  | some (.vNum _) => true
  | some (.vBool _) => true
  | some (.vStr s) => !s.data.contains (Char.ofNat 39)
  | some (.vBuffer _) => false
  | some (.vObj _) => false
  | some (.vArr _) => false

/-- Whether the `CREATE TABLE IF NOT EXISTS "name" ("col" TYPE ...)` text
that `createTableFromDefinition` interpolates from the definition parses:
the table name and every column name survive the unescaped `"..."`
interpolation, and every `DEFAULT` value renders as a literal. -/
def createTableParses (t : TableDefinition) : Bool :=
  identOk t.name &&
    t.columns.all (fun c => identOk c.name && defaultLiteralOk c.defaultValue)

/-- `SqliteService.createTableFromDefinition` (lines 192–212) interpolates
the table and column names into
`CREATE TABLE IF NOT EXISTS "name" ("col" TYPE ...)` without escaping:
when an identifier or a `DEFAULT` value breaks the text, prepare fails with
a syntax error (the callback-less `db.run` reports it out of band).  When
the text parses, the table is added with exactly the declared columns when
no table of that name exists, and the statement is a no-op otherwise. -/
def createTableFromDefinition (db : DBState) (t : TableDefinition) :
    Except String DBState :=
  if createTableParses t then
    .ok (match lookupTable db t.name with
         | some _ => db
         | none => db ++ [(t.name, { schema := t.columns, rows := [] })])
  else .error "SQLITE_ERROR: syntax error"

/-- Connection state: the durable (committed) file content, the current view
including uncommitted changes, and whether a transaction is open. -/
structure EngineState where
  file : DBState
  pending : DBState
  inTx : Bool

/-- One engine statement: the resulting state and the engine failure, if any.
A failed statement is skipped (statement-level abort; the transaction
remains open, as sqlite behaves for constraint/shape errors). -/
def execStmt (es : EngineState) (st : SqlStmt) : EngineState × Option String :=
  match st with
  | .beginTx => ({ es with inTx := true }, none)
  | .createTable t =>
      match createTableFromDefinition es.pending t with
      | .error m => (es, some m)
      | .ok pending2 =>
          ({ es with pending := pending2,
                     file := if es.inTx then es.file else pending2 }, none)
  | .insertRow tname row =>
      match lookupTable es.pending tname with
      | none => (es, some ("no such table: " ++ tname))
      | some tb =>
          if row.all (fun kv => tb.schema.any (fun c => c.name = kv.1)) then
            let pending2 := addRowToTable es.pending tname row
            ({ es with pending := pending2,
                       file := if es.inTx then es.file else pending2 }, none)
          else
            (es, some ("table " ++ tname ++ " has no column named " ++
              (((row.find? (fun kv =>
                  !(tb.schema.any (fun c => c.name = kv.1)))).map Prod.fst).getD "")))
  | .commitTx =>
      if es.inTx then ({ es with file := es.pending, inTx := false }, none)
      else (es, some "cannot commit - no transaction is active")
  | .rollbackTx =>
      if es.inTx then ({ es with pending := es.file, inTx := false }, none)
      else (es, some "cannot rollback - no transaction is active")

/-- Run a queue of callback-less statements in order, collecting the
out-of-band failures; a failure never stops the queue. -/
def execStmts : EngineState → List SqlStmt → EngineState × List String
  | es, [] => (es, [])
  | es, st :: rest =>
      let r := execStmt es st
      let r2 := execStmts r.1 rest
      (r2.1, r.2.toList ++ r2.2)

/-! ## Queue building by the ingestion pipeline -/

/-- JavaScript truthiness of the values handled by the pipeline. -/
def jsTruthy : JSValue → Bool
  | .vNull => false
  | .vUndefined => false
  | .vBool b => b
  | .vNum q => q ≠ 0
  | .vStr s => s ≠ ""
  | .vBuffer _ => true
  | .vObj _ => true
  | .vArr _ => true

/-- `Object.entries`: throws on null/undefined, yields the fields of an
object, index/value pairs for arrays, index/character pairs for strings, and
nothing for the remaining primitives. -/
def objEntries : JSValue → Except String (List (String × JSValue))
  | .vNull => .error "Cannot convert undefined or null to object"
  | .vUndefined => .error "Cannot convert undefined or null to object"
  | .vObj fields => .ok fields
  | .vArr elems => .ok (elems.enum.map fun iv => (toString iv.1, iv.2))
  | .vStr s => .ok (s.data.enum.map fun ic => (toString ic.1, .vStr (String.mk [ic.2])))
  | _ => .ok []

/-- `Object.entries` with the throw impossible (used where the receiver has
already passed a truthiness test). -/
def objEntriesD (v : JSValue) : List (String × JSValue) :=
  (objEntries v).toOption.getD []

/-- Property access `receiver[key]`: throws on null/undefined, field lookup
on objects, absent (`undefined`) on the rest. -/
def jsGet : JSValue → String → Except String (Option JSValue)
  | .vNull, _ => .error "Cannot read properties of null"
  | .vUndefined, _ => .error "Cannot read properties of undefined"
  | .vObj fields, key => .ok ((fields.find? (fun kv => kv.1 = key)).map Prod.snd)
  | _, _ => .ok none

mutual
/-- Simplified model of `JSON.stringify` (an external builtin), used only for
the deliberate TEXT-degrade of nested values. -/
def jsonStringify : JSValue → String
  | .vNull => "null"
  | .vUndefined => "undefined"
  | .vBool true => "true"
  | .vBool false => "false"
  | .vNum q => toString q
  | .vStr s => "\"" ++ s ++ "\""
  | .vBuffer _ => "\x7b\"type\":\"Buffer\"\x7d"
  | .vArr elems => "[" ++ jsonStringifyElems elems ++ "]"
  | .vObj fields => "\x7b" ++ jsonStringifyFields fields ++ "\x7d"

def jsonStringifyElems : List JSValue → String
  | [] => ""
  | [v] => jsonStringify v
  | v :: rest => jsonStringify v ++ "," ++ jsonStringifyElems rest

def jsonStringifyFields : List (String × JSValue) → String
  | [] => ""
  | [(k, v)] => "\"" ++ k ++ "\":" ++ jsonStringify v
  | (k, v) :: rest =>
      "\"" ++ k ++ "\":" ++ jsonStringify v ++ "," ++ jsonStringifyFields rest
end

/-- The value bound into an insert parameter: nested structures
(`val !== null && typeof val === 'object'`) are serialized to text; scalars
pass through. -/
def serializeForInsert : JSValue → JSValue
  | .vObj f => .vStr (jsonStringify (.vObj f))
  | .vArr e => .vStr (jsonStringify (.vArr e))
  | .vBuffer b => .vStr (jsonStringify (.vBuffer b))
  | v => v

/-- `SqliteService.insertDataIntoTable` (lines 248–265): one parameterized
insert whose column list is every key of the record except the literal `id`,
with nested values serialized; `Object.keys` throws on null/undefined. -/
def insertStmtFor (tname : String) (item : JSValue) : Except String SqlStmt :=
  match objEntries item with
  | .error e => .error e
  | .ok entries =>
      .ok (.insertRow tname ((entries.filter (fun kv => kv.1 ≠ "id")).map
        (fun kv => (kv.1, serializeForInsert kv.2))))

/-- Queue one insert per item, stopping at the first synchronous throw. -/
def queueInsertsFor (tname : String) : List JSValue → List SqlStmt × Option String
  | [] => ([], none)
  | it :: rest =>
      match insertStmtFor tname it with
      | .error e => ([], some e)
      | .ok st =>
          let r := queueInsertsFor tname rest
          (st :: r.1, r.2)

/-- `IJsonToSqliteOptions` from services/sqliteService/types.ts. -/
structure IJsonToSqliteOptions where
  tables : Option (List TableDefinition) := none
  inferTypes : Option Bool := none

/-- `ICsvToSqliteOptions` from services/sqliteService/types.ts. -/
structure ICsvToSqliteOptions where
  tableName : String
  columns : List ColumnDefinition

/-- Statements queued for one explicitly defined table (jsonToSqlite, lines
89–101): create the table, then insert every element of an array payload, or
of the array found under the table's name in an object payload. -/
def tableStmtsFor (jsonData : JSValue) (t : TableDefinition) :
    List SqlStmt × Option String :=
  match jsonData with
  | .vArr elems =>
      let r := queueInsertsFor t.name elems
      (.createTable t :: r.1, r.2)
  | _ =>
      match jsGet jsonData t.name with
      | .error e => ([.createTable t], some e)
      | .ok (some (.vArr elems)) =>
          let r := queueInsertsFor t.name elems
          (.createTable t :: r.1, r.2)
      | .ok _ => ([.createTable t], none)

def tablesLoop (jsonData : JSValue) : List TableDefinition →
    List SqlStmt × Option String
  | [] => ([], none)
  | t :: rest =>
      let r := tableStmtsFor jsonData t
      match r.2 with
      | some e => (r.1, some e)
      | none =>
          let r2 := tablesLoop jsonData rest
          (r.1 ++ r2.1, r2.2)

/-- The `inferTypes` non-array branch (lines 113–127): one table per
object entry whose value is a nonempty array, schema inferred from the first
element (`value[0] || {}`). -/
def inferEntriesLoop : List (String × JSValue) → List SqlStmt × Option String
  | [] => ([], none)
  | (key, .vArr (v0 :: vs)) :: rest =>
      let sample := if jsTruthy v0 then v0 else .vObj []
      let columns := inferColumnsFromObject (objEntriesD sample)
      let r := queueInsertsFor key (v0 :: vs)
      match r.2 with
      | some e => (.createTable ⟨key, columns⟩ :: r.1, some e)
      | none =>
          let r2 := inferEntriesLoop rest
          (.createTable ⟨key, columns⟩ :: r.1 ++ r2.1, r2.2)
  | _ :: rest => inferEntriesLoop rest

/-- The body statements of `jsonToSqlite`'s `db.serialize` block, together
with the synchronous throw (if any) that aborts queueing. -/
def jsonToSqliteQueue (jsonData : JSValue) (options : Option IJsonToSqliteOptions) :
    List SqlStmt × Option String :=
  match options with
  | some opts =>
      match opts.tables with
      | some ts =>
          if ts.isEmpty then
            jsonToSqliteInferOrRaw jsonData opts.inferTypes
          else
            tablesLoop jsonData ts
      | none => jsonToSqliteInferOrRaw jsonData opts.inferTypes
  | none => jsonToSqliteInferOrRaw jsonData none
where
  jsonToSqliteInferOrRaw (jsonData : JSValue) (inferTypes : Option Bool) :
      List SqlStmt × Option String :=
    if inferTypes = some true then
      match jsonData with
      | .vArr elems =>
          let sample :=
            if jsTruthy (elems.headD .vUndefined) then elems.headD .vUndefined
            else .vObj []
          let columns := inferColumnsFromObject (objEntriesD sample)
          let r := queueInsertsFor "data" elems
          (.createTable ⟨"data", columns⟩ :: r.1, r.2)
      | _ =>
          match objEntries jsonData with
          | .error e => ([], some e)
          | .ok entries => inferEntriesLoop entries
    else
      ([.createTable ⟨"json_data",
          [{ name := "id", type := .INTEGER, primaryKey := true },
           { name := "data", type := .TEXT }]⟩,
        .insertRow "json_data" [("data", .vStr (jsonStringify jsonData))]],
       none)

/-- Outcome of one ingestion call: the resulting durable file content, the
promise settlement observed by the caller, and the engine failures reported
out of band (no callback was attached to them). -/
structure IngestOutcome where
  file : DBState
  promise : Except String Unit
  engineErrors : List String

/-- `SqliteService.jsonToSqlite` (lines 69–145): BEGIN, the queued body and —
when queueing threw synchronously — ROLLBACK with a rejection; otherwise
COMMIT, whose callback settles the promise. -/
def jsonToSqlite (jsonData : JSValue) (options : Option IJsonToSqliteOptions) :
    IngestOutcome :=
  let q := jsonToSqliteQueue jsonData options
  match q.2 with
  | some e =>
      let r := execStmts ⟨[], [], false⟩ (.beginTx :: q.1 ++ [.rollbackTx])
      { file := r.1.file, promise := .error e, engineErrors := r.2 }
  | none =>
      let r := execStmts ⟨[], [], false⟩ (.beginTx :: q.1)
      let c := execStmt r.1 .commitTx
      { file := c.1.file,
        promise := match c.2 with
          | some e => .error e
          | none => .ok ()
        engineErrors := r.2 }

/-- `SqliteService.csvToSqlite` (lines 147–190): the parsed csv rows (an
external parser's output) are ingested into one explicitly defined table;
there is no rollback path at all in this function. -/
def csvToSqlite (rows : List Row) (options : ICsvToSqliteOptions) :
    IngestOutcome :=
  let items := rows.map JSValue.vObj
  let q := queueInsertsFor options.tableName items
  let body := SqlStmt.createTable ⟨options.tableName, options.columns⟩ :: q.1
  match q.2 with
  | some e =>
      let r := execStmts ⟨[], [], false⟩ (.beginTx :: body)
      { file := r.1.file, promise := .error e, engineErrors := r.2 }
  | none =>
      let r := execStmts ⟨[], [], false⟩ (.beginTx :: body)
      let c := execStmt r.1 .commitTx
      { file := c.1.file,
        promise := match c.2 with
          | some e => .error e
          | none => .ok ()
        engineErrors := r.2 }

/-! ## Schema introspection (`getDatabaseSchema`) -/

/-- Connection open modes; the sandbox always passes
`sqlite3.OPEN_READONLY`. -/
inductive OpenMode where
  | readonly
  | readwrite
deriving DecidableEq

/-- The shapes of ad-hoc statement the sandbox may be asked to run. -/
inductive SqlQuery where
  | selectAll (table : String)
  | insert (table : String) (row : Row)
  | update (table : String) (assignment : Row)
  | delete (table : String)
  | drop (table : String)

/-- The four mutating statement kinds named by the claim. -/
def SqlQuery.isMutating : SqlQuery → Bool
  | .selectAll _ => false
  | _ => true

/-- Merge an update's assignment into one row. -/
def overwriteRow (r assignment : Row) : Row :=
  r.map fun kv =>
    match assignment.find? (fun a => a.1 = kv.1) with
    | some a => a
    | none => kv

/-- The engine behavior of `db.all(query)` on a connection opened with the
given mode.  Prepare resolves the target table first, so a statement naming
a missing table fails with `no such table` whatever the mode was; a write
statement on an existing table then fails at step time on a read-only
connection with `SQLITE_READONLY`, leaving the file unchanged; on a
read-write connection it applies.  Reads return the rows. -/
def engineRunAll (mode : OpenMode) (db : DBState) (q : SqlQuery) :
    DBState × Except String (List Row) :=
  match q with
  | .selectAll t =>
      match lookupTable db t with
      | some tb => (db, .ok tb.rows)
      | none => (db, .error ("no such table: " ++ t))
  | .insert t row =>
      match lookupTable db t with
      | none => (db, .error ("no such table: " ++ t))
      | some _ =>
          if mode = .readonly then
            (db, .error "SQLITE_READONLY: attempt to write a readonly database")
          else (addRowToTable db t row, .ok [])
  | .update t assignment =>
      match lookupTable db t with
      | none => (db, .error ("no such table: " ++ t))
      | some _ =>
          if mode = .readonly then
            (db, .error "SQLITE_READONLY: attempt to write a readonly database")
          else
            (db.map fun nt =>
              if nt.1 = t then
                (nt.1, { nt.2 with rows := nt.2.rows.map (fun r => overwriteRow r assignment) })
              else nt, .ok [])
  | .delete t =>
      match lookupTable db t with
      | none => (db, .error ("no such table: " ++ t))
      | some _ =>
          if mode = .readonly then
            (db, .error "SQLITE_READONLY: attempt to write a readonly database")
          else
            (db.map fun nt => if nt.1 = t then (nt.1, { nt.2 with rows := [] }) else nt,
             .ok [])
  | .drop t =>
      match lookupTable db t with
      | none => (db, .error ("no such table: " ++ t))
      | some _ =>
          if mode = .readonly then
            (db, .error "SQLITE_READONLY: attempt to write a readonly database")
          else (db.filter (fun nt => nt.1 ≠ t), .ok [])

/-- Modelled from the spec: the result's column names are "collected from the
first returned row (or empty set if zero rows)"; the repository's
`toCamelCase` utility (src/utils/toCamelCase.ts, absent from the source
tree) is modelled as preserving the keys of the row. -/
def columnsOfRows (rows : List Row) : List String :=
  ((rows.head?).map (fun row => row.map Prod.fst)).getD []

/-- `LLMService.executeSqlQuery` (services/llmService/index.ts, lines
101–127): open the database file read-only, run exactly the caller-supplied
statement with `db.all`; an engine failure rejects with the engine's message
embedded; on success return the column names and the rows. -/
def executeSqlQuery (file : DBState) (q : SqlQuery) :
    DBState × Except String (List String × List Row) :=
  let r := engineRunAll .readonly file q
  match r.2 with
  | .error m => (r.1, .error ("Failed to execute query: " ++ m))
  | .ok rows => (r.1, .ok (columnsOfRows rows, rows))

/-! ## Local scratch files and the materializer / sandbox orchestration -/

/-- The local scratch area, as the set of existing file paths. -/
abbrev FS := List String

def writeF (p : String) (fs : FS) : FS := if p ∈ fs then fs else p :: fs

def removeF (p : String) (fs : FS) : FS := fs.filter (fun x => x ≠ p)

/-- `TEMP_DIR` of both services. -/
def TEMP_DIR : String := "uploads/temp"

/-- `path.join` for the shapes used here. -/
def pathJoin (a b : String) : String := a ++ "/" ++ b

/-- Character-level split, the model of JavaScript `String.split` with a
one-character separator. -/
def splitOnChar (sep : Char) : List Char → List (List Char)
  | [] => [[]]
  | c :: rest =>
      if c = sep then [] :: splitOnChar sep rest
      else (c :: (splitOnChar sep rest).headD []) :: (splitOnChar sep rest).tail

/-- Character-level join, the model of JavaScript `Array.join` with a
one-character separator. -/
def joinChar (sep : Char) : List (List Char) → List Char
  | [] => []
  | x :: rest => x ++ (if rest.isEmpty then [] else sep :: joinChar sep rest)

/-- Strip the final extension of a base name (`path.parse(b).name`): drop
everything from the last dot, unless that dot is the first character. -/
def stripExt (base : List Char) : List Char :=
  let r := base.reverse
  let afterDot := r.takeWhile (· ≠ '.')
  if afterDot.length = r.length then base
  else if afterDot.length + 1 = r.length then base
  else (r.drop (afterDot.length + 1)).reverse

/-- `path.parse(fileName).name`: base name without directory or final
extension. -/
def parseNameNoExt (fileName : String) : String :=
  String.mk (stripExt ((splitOnChar '/' fileName.data).getLastD []))

/-- `ISqliteServiceResult` from services/sqliteService/types.ts. -/
structure ISqliteServiceResult where
  key : Option String := none
  message : Option String := none
  error : Option String := none

/-- The uploaded bytes, carrying the outcomes the two external parsers
(`JSON.parse`, the csv-parser stream) would produce on them. -/
structure FileBytes where
  jsonParsed : Except String JSValue
  csvParsed : Except String (List Row)

/-- The upload-boundary file object (`IFile`): name and bytes. -/
structure IFile where
  name : String
  data : FileBytes

/-- Result of one materializer run: the scratch file system afterwards, and
the structured result returned to the caller. -/
structure MaterializerOutcome where
  fs : FS
  result : ISqliteServiceResult

/-- `SqliteService.processJsonFile` (services/sqliteService/index.ts, lines
267–322).  External nondeterminism is explicit: `uuid` is the value minted
by `uuidv4()`, `uploadOutcome` the blob-store call's result (`.error e` =
the call threw, `.ok none` = it returned without a key, `.ok (some k)` = it
returned `{key := k}`).  The scratch file system is threaded through; the
two `fs.unlinkSync` calls sit after the upload on the success path only. -/
def processJsonFile (file : IFile) (uuid : String)
    (options : Option IJsonToSqliteOptions)
    (uploadOutcome : Except String (Option String)) (fs0 : FS) :
    MaterializerOutcome :=
  let jsonFilePath := pathJoin TEMP_DIR (uuid ++ "_" ++ file.name)
  let dbFilePath := pathJoin TEMP_DIR (uuid ++ "_" ++ parseNameNoExt file.name ++ ".db")
  let fs1 := writeF jsonFilePath fs0
  match file.data.jsonParsed with
  | .error e =>
      { fs := fs1, result := { error := some ("Failed to process JSON file: " ++ e) } }
  | .ok jsonData =>
      let ing := jsonToSqlite jsonData options
      let fs2 := writeF dbFilePath fs1
      match ing.promise with
      | .error e =>
          { fs := fs2, result := { error := some ("Failed to process JSON file: " ++ e) } }
      | .ok _ =>
          match uploadOutcome with
          | .error e =>
              { fs := fs2,
                result := { error := some ("Failed to process JSON file: " ++ e) } }
          | .ok keyOpt =>
              let fs3 := removeF dbFilePath (removeF jsonFilePath fs2)
              match keyOpt with
              | none =>
                  { fs := fs3,
                    result := { error := some "Failed to upload SQLite file: No key returned from S3 service" } }
              | some k =>
                  { fs := fs3,
                    result := { key := some k,
                                message := some "JSON successfully converted to SQLite and uploaded" } }

/-- `SqliteService.processCsvFile` (lines 324–378), same discipline; the csv
parse happens inside `csvToSqlite` before the database file is created, so a
parse failure leaves only the written source file behind. -/
def processCsvFile (file : IFile) (uuid : String) (options : ICsvToSqliteOptions)
    (uploadOutcome : Except String (Option String)) (fs0 : FS) :
    MaterializerOutcome :=
  let csvFilePath := pathJoin TEMP_DIR (uuid ++ "_" ++ file.name)
  let dbFilePath := pathJoin TEMP_DIR (uuid ++ "_" ++ parseNameNoExt file.name ++ ".db")
  let fs1 := writeF csvFilePath fs0
  match file.data.csvParsed with
  | .error e =>
      { fs := fs1, result := { error := some ("Failed to process CSV file: " ++ e) } }
  | .ok rows =>
      let ing := csvToSqlite rows options
      let fs2 := writeF dbFilePath fs1
      match ing.promise with
      | .error e =>
          { fs := fs2, result := { error := some ("Failed to process CSV file: " ++ e) } }
      | .ok _ =>
          match uploadOutcome with
          | .error e =>
              { fs := fs2,
                result := { error := some ("Failed to process CSV file: " ++ e) } }
          | .ok keyOpt =>
              let fs3 := removeF dbFilePath (removeF csvFilePath fs2)
              match keyOpt with
              | none =>
                  { fs := fs3,
                    result := { error := some "Failed to upload SQLite file: No key returned from S3 service" } }
              | some k =>
                  { fs := fs3,
                    result := { key := some k,
                                message := some "CSV successfully converted to SQLite and uploaded" } }

/-- A dataset row of the external record store (src/models, `IDataset`). -/
structure DatasetRec where
  id : String
  file_key : String
  user_id : String
deriving DecidableEq

/-- The scratch path of `LLMService.downloadDataset` (line 152):
`uploads/temp/<dataset.id>.db` — it embeds only the dataset id, no freshly
minted unique identifier. -/
def downloadDatasetPath (ds : DatasetRec) : String :=
  pathJoin TEMP_DIR (ds.id ++ ".db")

/-- `LLMService.downloadDataset` (lines 132–158): resolve the dataset
record, mint a presigned URL, fetch the bytes, write them to the scratch
path.  The external steps carry their outcome as booleans. -/
def downloadDataset (datasetId : String) (ds : Option DatasetRec)
    (presignOk : Bool) (fetchOk : Bool) (fs0 : FS) : FS × Except String String :=
  match ds with
  | none => (fs0, .error ("Dataset with ID " ++ datasetId ++ " not found"))
  | some d =>
      if presignOk then
        if fetchOk then (writeF (downloadDatasetPath d) fs0, .ok (downloadDatasetPath d))
        else (fs0, .error "Failed to download dataset")
      else (fs0, .error ("Failed to generate presigned URL for dataset " ++ datasetId))

/-- Result of one sandbox query run. -/
structure SandboxOutcome where
  fs : FS
  result : Except String (List String × List Row)

/-- `LLMService.executeQuery` (lines 319–350): ownership check, download to
scratch, run the caller's statement read-only; the scratch copy is removed
after a successful query, while the rethrow path returns with it still on
disk. -/
def executeQuery (datasetId : String) (q : SqlQuery) (userId : String)
    (ds : Option DatasetRec) (dbFile : DBState)
    (presignOk fetchOk : Bool) (fs0 : FS) : SandboxOutcome :=
  match ds with
  | none =>
      { fs := fs0, result := .error ("Dataset with ID " ++ datasetId ++ " not found") }
  | some d =>
      if d.user_id ≠ userId then
        { fs := fs0, result := .error "You do not have permission to access this dataset" }
      else
        let dl := downloadDataset datasetId (some d) presignOk fetchOk fs0
        match dl.2 with
        | .error e => { fs := dl.1, result := .error e }
        | .ok dbPath =>
            let r := executeSqlQuery dbFile q
            match r.2 with
            | .error e => { fs := dl.1, result := .error e }
            | .ok res => { fs := removeF dbPath dl.1, result := .ok res }

/-- `ILLMResponse` from services/llmService/types.ts. -/
structure ILLMResponse where
  content : String
  sqlQuery : Option String := none
  title : Option String := none
  error : Option String := none

/-- A chat row of the external record store. -/
structure ChatRec where
  user_id : String
  dataset_id : String

/-- `LLMService.processMessage` (lines 172–314).  The oracle reply is an
explicit parameter (`.error` = the chain rejected); schema introspection and
the chat-history persistence are glue on the already-fetched file and the
external record store and are modelled as succeeding.  The extraction throw
(no fenced sql block in the reply) is caught by the surrounding try/catch,
which replaces the reply with an error message; the downloaded scratch copy
is removed only when extraction returned. -/
def processMessage (chatId : String) (userId : String)
    (apiKeyPresent : Bool) (chat : Option ChatRec) (ds : Option DatasetRec)
    (presignOk fetchOk : Bool) (oracleReply : Except String String)
    (fs0 : FS) : FS × ILLMResponse :=
  if apiKeyPresent then
    match chat with
    | none =>
        (fs0, { content := "Chat with ID " ++ chatId ++ " not found",
                error := some "Chat not found" })
    | some c =>
        if c.user_id ≠ userId then
          (fs0, { content := "You do not have permission to access this chat",
                  error := some "Permission denied" })
        else
          let dl := downloadDataset c.dataset_id ds presignOk fetchOk fs0
          match dl.2 with
          | .error e => (dl.1, { content := "An error occurred: " ++ e, error := some e })
          | .ok dbPath =>
              match oracleReply with
              | .error e =>
                  (dl.1, { content := "An error occurred: " ++ e, error := some e })
              | .ok reply =>
                  match extractSqlQueryAndTile reply with
                  | .error _ =>
                      (dl.1, { content := "An error occurred: Cannot destructure property of undefined",
                               error := some "Cannot destructure property of undefined" })
                  | .ok tq =>
                      (removeF dbPath dl.1,
                       { content := reply, sqlQuery := tq.2, title := tq.1 })
  else
    (fs0, { content := "OpenAI API key is not configured. Please set the OPENAI_API_KEY environment variable.",
            error := some "OpenAI API key not configured" })

/-- A logical query-sandbox invocation: the dataset it targets together
with an operation identity distinguishing concurrent invocations. -/
structure SandboxInvocation where
  dataset : DatasetRec
  opId : ℕ
deriving DecidableEq

/-- The scratch path a sandbox invocation uses (`downloadDataset` line
152): a function of the dataset record alone. -/
def invocationScratchPath (inv : SandboxInvocation) : String :=
  downloadDatasetPath inv.dataset

/-! ## Durable keys and name recovery (s3 service) -/

/-- `S3_CONFIG.privateDatasetPrefix` from src/config/aws.ts. -/
def privateDatasetRoot : String := "private/datasets/"

/-- `S3Service.uploadPrivateDataset` (services/s3Service/index.ts, lines
37–56): the durable key is `<privateDatasetPrefix><userId>/<uuid>_<name>`,
with `uuid` the value minted by `uuidv4()` (explicit parameter here). -/
def uploadPrivateDatasetKey (uuid userId fileName : String) : String :=
  privateDatasetRoot ++ userId ++ "/" ++ (uuid ++ "_" ++ fileName)

/-- The display-name reconstruction of `S3Service.listUserDatasets` (lines
75–107): `key.split('/').pop()`, split the segment on `_`, drop the first
part and rejoin the rest with `_`. -/
def listUserDatasetsName (key : String) : String :=
  String.mk (joinChar '_'
    ((splitOnChar '_' ((splitOnChar '/' key.data).getLastD [])).drop 1))

/-! ## Theorems -/

theorem findTriple_sound :
    ∀ s b r, findTriple s = some (b, r) →
      s = b ++ tick3 ++ r ∧ LazyBody b r := by
  intro s
  induction s with
  | nil => intro b r h; simp [findTriple] at h
  | cons c rest ih =>
      intro b r h
      rw [findTriple] at h
      by_cases hg : c = '`' ∧ rest.take 2 = ['`', '`']
      · rw [if_pos hg] at h
        obtain ⟨hc, ht⟩ := hg
        obtain ⟨hb, hr⟩ := Prod.mk.injEq .. ▸ Option.some.inj h
        subst hb hr hc
        constructor
        · have h2 := rest.take_append_drop 2
          rw [ht] at h2
          nth_rewrite 1 [← h2]
          simp [tick3]
        · intro a _ _
          simp
      · rw [if_neg hg] at h
        cases hrec : findTriple rest with
        | none => rw [hrec] at h; simp at h
        | some p =>
            rw [hrec] at h
            simp only [Option.map_some'] at h
            obtain ⟨hb, hr⟩ := Prod.mk.injEq .. ▸ Option.some.inj h
            obtain ⟨hdec, hmin⟩ := ih p.1 p.2 hrec
            subst hb hr
            constructor
            · simp [hdec]
            · intro a bb heq
              have heq2 : c :: rest = a ++ tick3 ++ bb := by
                rw [hdec]
                simpa using heq
              cases a with
              | nil =>
                  exfalso
                  apply hg
                  simp only [List.nil_append, tick3, List.cons_append] at heq2
                  injection heq2 with h1 h2
                  subst h1
                  refine ⟨rfl, ?_⟩
                  rw [h2]
                  rfl
              | cons a0 atl =>
                  simp only [List.cons_append] at heq2
                  injection heq2 with h1 h2
                  have := hmin atl bb (hdec ▸ h2)
                  simpa using Nat.succ_le_succ this

theorem findTriple_complete :
    ∀ b r, LazyBody b r → findTriple (b ++ tick3 ++ r) = some (b, r) := by
  intro b
  induction b with
  | nil =>
      intro r _
      rw [findTriple.eq_def]
      simp [tick3]
  | cons c btl ih =>
      intro r hmin
      rw [List.cons_append, List.cons_append, findTriple]
      have hg : ¬(c = '`' ∧ (btl ++ tick3 ++ r).take 2 = ['`', '`']) := by
        intro ⟨hc, ht⟩
        have hdecomp : (c :: btl) ++ tick3 ++ r
            = [] ++ tick3 ++ ((btl ++ tick3 ++ r).drop 2) := by
          have h2 := (btl ++ tick3 ++ r).take_append_drop 2
          rw [ht] at h2
          calc (c :: btl) ++ tick3 ++ r
              = c :: (btl ++ tick3 ++ r) := by simp
            _ = '`' :: (['`', '`'] ++ (btl ++ tick3 ++ r).drop 2) := by
                rw [hc]
                conv_lhs => rw [← h2]
            _ = [] ++ tick3 ++ ((btl ++ tick3 ++ r).drop 2) := by simp [tick3]
        have := hmin _ _ hdecomp
        simp at this
      rw [if_neg hg]
      have hmin' : LazyBody btl r := by
        intro a bb heq
        have := hmin (c :: a) bb (by simp [heq])
        simpa using this
      rw [ih r hmin']
      rfl

theorem takeWhile_append_sat {α : Type} (p : α → Bool) :
    ∀ (l1 l2 : List α), (∀ c ∈ l1, p c = true) →
      (l1 ++ l2).takeWhile p = l1 ++ l2.takeWhile p := by
  intro l1
  induction l1 with
  | nil => simp
  | cons a l ih =>
      intro l2 hall
      have ha : p a = true := hall a (by simp)
      simp only [List.cons_append, List.takeWhile_cons, ha, if_true]
      rw [ih l2 (fun c hc => hall c (by simp [hc]))]

theorem dropWhile_append_sat {α : Type} (p : α → Bool) :
    ∀ (l1 l2 : List α), (∀ c ∈ l1, p c = true) →
      (l1 ++ l2).dropWhile p = l2.dropWhile p := by
  intro l1
  induction l1 with
  | nil => simp
  | cons a l ih =>
      intro l2 hall
      have ha : p a = true := hall a (by simp)
      simp only [List.cons_append, List.dropWhile_cons, ha, if_true]
      exact ih l2 (fun c hc => hall c (by simp [hc]))

theorem isSqlSep_shape (sep : List Char) (h : isSqlSep sep = true) :
    sep.length = 4 ∧ ∀ c ∈ sep, c ≠ '\n' := by
  match sep with
  | [a, b, c, d] =>
      simp only [isSqlSep, Bool.and_eq_true, Bool.or_eq_true, decide_eq_true_eq] at h
      obtain ⟨⟨⟨ha, hb⟩, hc⟩, hd⟩ := h
      refine ⟨rfl, ?_⟩
      intro x hx
      simp only [List.mem_cons, List.not_mem_nil, or_false] at hx
      rcases hx with hx | hx | hx | hx <;> subst hx
      · subst ha; decide
      · rcases hb with hb | hb <;> (subst hb; decide)
      · rcases hc with hc | hc <;> (subst hc; decide)
      · rcases hd with hd | hd <;> (subst hd; decide)
  | [] => simp [isSqlSep] at h
  | [_] => simp [isSqlSep] at h
  | [_, _] => simp [isSqlSep] at h
  | [_, _, _] => simp [isSqlSep] at h
  | _ :: _ :: _ :: _ :: _ :: _ => simp [isSqlSep] at h

theorem dropWhile_head_false {α : Type} (p : α → Bool) :
    ∀ (l : List α) (c : α) (rest : List α),
      l.dropWhile p = c :: rest → p c = false := by
  intro l
  induction l with
  | nil => intro c r h; simp [List.dropWhile] at h
  | cons a tl ih =>
      intro c r h
      rw [List.dropWhile_cons] at h
      by_cases hp : p a = true
      · rw [if_pos hp] at h
        exact ih c r h
      · rw [if_neg hp] at h
        obtain ⟨h1, _⟩ := List.cons.injEq .. ▸ h
        rw [← h1]
        exact Bool.eq_false_iff.mpr hp

theorem matchAt_sound (s t q : List Char) (h : matchAt s = some (t, q)) :
    HeadBlock s t q := by
  simp only [matchAt] at h
  split at h
  case isFalse => exact absurd h (by simp)
  case isTrue h3 =>
    split at h
    case isFalse => exact absurd h (by simp)
    case isTrue hcond =>
      obtain ⟨hlen, hsep, hne⟩ := hcond
      cases hf : findTriple ((s.drop 3).dropWhile (· ≠ '\n')).tail with
      | none => rw [hf] at h; simp at h
      | some p =>
          obtain ⟨b0, r0⟩ := p
          rw [hf] at h
          simp only [Option.map_some'] at h
          obtain ⟨ht, hq⟩ := Prod.mk.injEq .. ▸ Option.some.inj h
          obtain ⟨hdec, hlazy⟩ := findTriple_sound _ b0 r0 hf
          subst ht hq
          obtain ⟨c0, rest0, hafter⟩ :
              ∃ c0 rest0, (s.drop 3).dropWhile (· ≠ '\n') = c0 :: rest0 := by
            cases hae : (s.drop 3).dropWhile (· ≠ '\n') with
            | nil => exact absurd hae hne
            | cons c0 r0' => exact ⟨c0, r0', rfl⟩
          have hc0 : c0 = '\n' := by
            have := dropWhile_head_false _ _ _ _ hafter
            simpa using this
          have hr0 : rest0 = b0 ++ tick3 ++ r0 := by
            have h' := hdec
            rw [hafter] at h'
            simpa using h'
          refine ⟨((s.drop 3).takeWhile (· ≠ '\n')).drop
              (((s.drop 3).takeWhile (· ≠ '\n')).length - 4), r0, ?_, hsep, ?_, ?_, hlazy⟩
          · conv_lhs => rw [← s.take_append_drop 3]
            rw [h3]
            conv_lhs =>
              rw [← List.takeWhile_append_dropWhile
                    (p := (· ≠ '\n')) (l := s.drop 3),
                  hafter, hc0, hr0]
            conv_lhs =>
              rw [← List.take_append_drop
                    (((s.drop 3).takeWhile (· ≠ '\n')).length - 4)
                    ((s.drop 3).takeWhile (· ≠ '\n'))]
            simp
          · intro hnil
            have hl := congrArg List.length hnil
            rw [List.length_take] at hl
            simp only [List.length_nil] at hl
            omega
          · intro hmem
            have hmem' : '\n' ∈ (s.drop 3).takeWhile (· ≠ '\n') :=
              List.take_subset _ _ hmem
            have := List.mem_takeWhile_imp hmem'
            simp at this

theorem matchAt_complete (s t q : List Char) (h : HeadBlock s t q) :
    matchAt s = some (t, q) := by
  obtain ⟨sep, rest, hs, hsep, htne, hnl, hlazy⟩ := h
  obtain ⟨hseplen, hsepnl⟩ := isSqlSep_shape sep hsep
  have htake3 : s.take 3 = tick3 := by
    rw [hs]
    exact List.take_left tick3 _
  have hdrop3 : s.drop 3 = t ++ (sep ++ '\n' :: (q ++ tick3 ++ rest)) := by
    rw [hs]
    simp only [tick3, List.cons_append, List.nil_append, List.drop_succ_cons,
      List.drop_zero, List.append_assoc]
  have hallt : ∀ c ∈ t, (decide (c ≠ '\n')) = true := by
    intro c hc
    simp only [decide_eq_true_eq]
    intro h'
    exact hnl (h' ▸ hc)
  have hallsep : ∀ c ∈ sep, (decide (c ≠ '\n')) = true := by
    intro c hc
    simp only [decide_eq_true_eq]
    exact hsepnl c hc
  have hline : (s.drop 3).takeWhile (· ≠ '\n') = t ++ sep := by
    rw [hdrop3, takeWhile_append_sat _ t _ hallt,
        takeWhile_append_sat _ sep _ hallsep]
    simp [List.takeWhile_cons]
  have hdropw : (s.drop 3).dropWhile (· ≠ '\n') = '\n' :: (q ++ tick3 ++ rest) := by
    rw [hdrop3, dropWhile_append_sat _ t _ hallt,
        dropWhile_append_sat _ sep _ hallsep]
    simp [List.dropWhile_cons]
  have hlinelen : (t ++ sep).length = t.length + 4 := by simp [hseplen]
  have ht1 : t.length ≠ 0 := fun h0 => htne (List.length_eq_zero.mp h0)
  have hlen5 : 5 ≤ (t ++ sep).length := by
    rw [hlinelen]
    omega
  have hldrop : (t ++ sep).drop ((t ++ sep).length - 4) = sep := by
    rw [hlinelen]
    simp
  have hltake : (t ++ sep).take ((t ++ sep).length - 4) = t := by
    rw [hlinelen]
    simp
  simp only [matchAt]
  rw [htake3, hline, hdropw, if_pos rfl]
  rw [hldrop, hltake]
  rw [if_pos ⟨hlen5, hsep, by simp⟩]
  simp only [List.tail_cons]
  rw [findTriple_complete q rest hlazy]
  rfl

theorem firstMatch_eq_some (s : List Char) :
    ∀ (n : ℕ) (t q : List Char),
      matchAt (s.drop n) = some (t, q) →
      (∀ m, m < n → matchAt (s.drop m) = none) →
      firstMatch s = some (t, q) := by
  induction s with
  | nil =>
      intro n t q h _
      rw [List.drop_nil] at h
      simp [matchAt, tick3] at h
  | cons c rest ih =>
      intro n t q h hmin
      cases n with
      | zero =>
          rw [List.drop_zero] at h
          rw [firstMatch, h]
      | succ n' =>
          have h0 : matchAt (c :: rest) = none := by
            have := hmin 0 (Nat.succ_pos n')
            simpa using this
          rw [firstMatch, h0]
          exact ih n' t q (by simpa using h)
            (fun m hm => by simpa using hmin (m + 1) (Nat.succ_lt_succ hm))

/-- C7 (amended): extraction reads only the leftmost fenced block whose
opening fence line carries free title text followed by a space and the
token `sql` (case-insensitive) — the lazy body capture matches the empty
string, so an empty-bodied block is a match too.  Whenever no earlier
position carries any such block (empty-bodied or not) and the block at the
matched position has a nonempty body, the extraction returns exactly that
block's title and body, both trimmed; all later fenced blocks are ignored
(only `matches[0]` is read).  (The amendment relative to the original
claim: when the leftmost matched block's body is empty, the falsy
`if (sqlQuery)` test discards it and both outputs are absent, even when a
later block's body is nonempty — see the counterexample.) -/
theorem sql_extraction_returns_first_block (content : String) (n : ℕ)
    (t q : List Char)
    (hblock : HeadBlock (content.data.drop n) t q)
    (hfirst : ∀ m, m < n → ∀ t' q', ¬ HeadBlock (content.data.drop m) t' q')
    (hq : q ≠ []) :
    extractSqlQueryAndTile content =
      .ok (some (String.mk (jsTrim t)), some (String.mk (jsTrim q))) := by
  have hm : matchAt (content.data.drop n) = some (t, q) :=
    matchAt_complete _ _ _ hblock
  have hnone : ∀ m, m < n → matchAt (content.data.drop m) = none := by
    intro m hlt
    cases hmm : matchAt (content.data.drop m) with
    | none => rfl
    | some p =>
        obtain ⟨t', q'⟩ := p
        exact absurd (matchAt_sound _ _ _ hmm) (hfirst m hlt t' q')
  have hfm := firstMatch_eq_some content.data n t q hm hnone
  simp only [extractSqlQueryAndTile, hfm]
  rw [if_pos hq]

/-- C7 witness: the reply carries two fenced sql blocks; extraction returns
the first one's title and trimmed body and ignores the second block. -/
theorem sql_extraction_returns_first_block_witness :
    extractSqlQueryAndTile "```T sql\nSELECT 1;\n```\n```U sql\nSELECT 2;\n```" =
      .ok (some "T", some "SELECT 1;") := by
  have hlazy : LazyBody "SELECT 1;\n".data "\n```U sql\nSELECT 2;\n```".data :=
    (findTriple_sound
      ("SELECT 1;\n".data ++ tick3 ++ "\n```U sql\nSELECT 2;\n```".data)
      "SELECT 1;\n".data "\n```U sql\nSELECT 2;\n```".data (by decide)).2
  have h := sql_extraction_returns_first_block
      "```T sql\nSELECT 1;\n```\n```U sql\nSELECT 2;\n```" 0
      ['T'] "SELECT 1;\n".data
      ⟨[' ', 's', 'q', 'l'], "\n```U sql\nSELECT 2;\n```".data,
        by decide, by decide, by decide, by decide, hlazy⟩
      (fun m hm _ _ _ => absurd hm (Nat.not_lt_zero m))
      (by decide)
  exact h

/-- C7 counterexample: a reply whose first fenced sql block has an empty
body, followed by a second block with a nonempty body.  The regex matches
the empty-bodied block first (the lazy body capture matches the empty
string), only `matches[0]` is read, and the falsy `if (sqlQuery)` test then
discards it: both outputs come back absent, and the later nonempty block is
never returned — contradicting the claim that the found block's contents
are returned. -/
theorem sql_extraction_empty_body_counterexample :
    extractSqlQueryAndTile "```A sql\n```\n```B sql\nSELECT 2;\n```" =
      .ok (none, none) ∧
    extractSqlQueryAndTile "```A sql\n```\n```B sql\nSELECT 2;\n```" ≠
      .ok (some "B", some "SELECT 2;") := by
  refine ⟨rfl, ?_⟩
  intro h
  rw [show extractSqlQueryAndTile "```A sql\n```\n```B sql\nSELECT 2;\n```" =
    .ok (none, none) from rfl] at h
  exact Option.noConfusion (congrArg Prod.fst (Except.ok.inj h))

/-- C1: on a reply containing no fenced sql block, the committed extractor
does not return with both outputs absent — `matchAll` yields no match, and
`const [_, title, sqlQuery] = matches[0];` destructures `undefined`, which
throws a `TypeError` (modelled `Except.error ()`).  Consequently the
conversation orchestrator's catch replaces the reply: its content is an
error message, not the reply's prose.  The other snapshot of the same
function in the repository (guarded with `?? []`) returns both outputs
absent as the spec describes, evidencing the intended behavior. -/
theorem sql_extraction_no_block_throws :
    extractSqlQueryAndTile "hello" = .error () ∧
    extractSqlQueryAndTileGuarded "hello" = (none, none) ∧
    (processMessage "c1" "u" true (some ⟨"u", "d"⟩) (some ⟨"d", "k", "u"⟩)
      true true (.ok "hello") []).2.content ≠ "hello" ∧
    ((processMessage "c1" "u" true (some ⟨"u", "d"⟩) (some ⟨"d", "k", "u"⟩)
      true true (.ok "hello") []).2.error).isSome = true :=
  ⟨rfl, rfl, by decide, rfl⟩

/-- C9: the type inferrer is a total function implementing exactly the
documented rules: null/undefined ↦ NULL, integral number ↦ INTEGER,
fractional number ↦ REAL, boolean ↦ INTEGER, binary payload ↦ BLOB,
string ↦ TEXT, nested object/array ↦ TEXT. -/
theorem type_inferrer_rules :
    inferColumnType .vNull = .NULL ∧
    inferColumnType .vUndefined = .NULL ∧
    (∀ q : ℚ, q.den = 1 → inferColumnType (.vNum q) = .INTEGER) ∧
    (∀ q : ℚ, q.den ≠ 1 → inferColumnType (.vNum q) = .REAL) ∧
    (∀ b, inferColumnType (.vBool b) = .INTEGER) ∧
    (∀ bs, inferColumnType (.vBuffer bs) = .BLOB) ∧
    (∀ s, inferColumnType (.vStr s) = .TEXT) ∧
    (∀ f, inferColumnType (.vObj f) = .TEXT) ∧
    (∀ e, inferColumnType (.vArr e) = .TEXT) := by
  refine ⟨rfl, rfl, ?_, ?_, fun _ => rfl, fun _ => rfl, fun _ => rfl,
    fun _ => rfl, fun _ => rfl⟩
  · intro q hq
    simp [inferColumnType, hq]
  · intro q hq
    simp [inferColumnType, hq]

/-- C9 witness: the two number rules at concrete inputs 3 and 3/2. -/
theorem type_inferrer_rules_witness :
    inferColumnType (.vNum 3) = .INTEGER ∧
    inferColumnType (.vNum ⟨3, 2, by decide, by decide⟩) = .REAL :=
  ⟨type_inferrer_rules.2.2.1 3 (by decide),
   type_inferrer_rules.2.2.2.1 ⟨3, 2, by decide, by decide⟩ (by decide)⟩

/-- C6 (amended): inferred schema construction always yields the synthetic
`id`/INTEGER/primary-key column first, followed by exactly one column per
*non-empty-named* field of the representative record, in field order, typed
by the type inferrer; the empty record yields only the `id` column.  (The
amendment relative to the original claim: a field whose name is the empty
string is skipped by `if (!key) continue;` and contributes no column.) -/
theorem schema_inference_shape (obj : List (String × JSValue)) :
    (inferColumnsFromObject obj).head? = some idColumn ∧
    idColumn.name = "id" ∧ idColumn.type = .INTEGER ∧ idColumn.primaryKey = true ∧
    (inferColumnsFromObject obj).tail =
      (obj.filter (fun kv => kv.1 ≠ "")).map
        (fun kv => { name := kv.1, type := inferColumnType kv.2 }) ∧
    inferColumnsFromObject [] = [idColumn] := by
  refine ⟨rfl, rfl, rfl, rfl, ?_, rfl⟩
  show inferColumnsLoop obj = _
  induction obj with
  | nil => rfl
  | cons kv rest ih =>
      obtain ⟨k, v⟩ := kv
      by_cases hk : k = ""
      · simp [inferColumnsLoop, hk, ih]
      · simp [inferColumnsLoop, hk, ih]

/-- C6 counterexample: the representative record with the single field named
by the empty string yields only the `id` column — not one column per field of
the record as the original claim states. -/
theorem schema_inference_empty_key_counterexample :
    inferColumnsFromObject [("", JSValue.vStr "x")] = [idColumn] ∧
    (inferColumnsFromObject [("", JSValue.vStr "x")]).length ≠ 2 :=
  ⟨rfl, by decide⟩

/-- C6 witness: one ordinary record, its column list read off the amended
characterization. -/
theorem schema_inference_shape_witness :
    (inferColumnsFromObject [("age", JSValue.vStr "x")]).tail =
      [{ name := "age", type := SqlType.TEXT }] :=
  ((schema_inference_shape [("age", JSValue.vStr "x")]).2.2.2.2.1).trans (by rfl)

/-- C5: the sandbox's execute operation opens the file read-only, so every
caller-supplied INSERT/UPDATE/DELETE/DROP statement is rejected with an
engine-level failure surfaced to the caller, never silently succeeding, and
the file contents are unchanged. -/
theorem sandbox_rejects_mutations (file : DBState) (q : SqlQuery)
    (h : q.isMutating = true) :
    (executeSqlQuery file q).1 = file ∧
    ∃ msg, (executeSqlQuery file q).2 = .error msg := by
  cases q with
  | selectAll t => simp [SqlQuery.isMutating] at h
  | insert t row =>
      cases hl : lookupTable file t with
      | none =>
          refine ⟨?_, "Failed to execute query: " ++ ("no such table: " ++ t), ?_⟩ <;>
            simp [executeSqlQuery, engineRunAll, hl]
      | some tb =>
          refine ⟨?_, "Failed to execute query: " ++
              "SQLITE_READONLY: attempt to write a readonly database", ?_⟩ <;>
            simp [executeSqlQuery, engineRunAll, hl]
  | update t a =>
      cases hl : lookupTable file t with
      | none =>
          refine ⟨?_, "Failed to execute query: " ++ ("no such table: " ++ t), ?_⟩ <;>
            simp [executeSqlQuery, engineRunAll, hl]
      | some tb =>
          refine ⟨?_, "Failed to execute query: " ++
              "SQLITE_READONLY: attempt to write a readonly database", ?_⟩ <;>
            simp [executeSqlQuery, engineRunAll, hl]
  | delete t =>
      cases hl : lookupTable file t with
      | none =>
          refine ⟨?_, "Failed to execute query: " ++ ("no such table: " ++ t), ?_⟩ <;>
            simp [executeSqlQuery, engineRunAll, hl]
      | some tb =>
          refine ⟨?_, "Failed to execute query: " ++
              "SQLITE_READONLY: attempt to write a readonly database", ?_⟩ <;>
            simp [executeSqlQuery, engineRunAll, hl]
  | drop t =>
      cases hl : lookupTable file t with
      | none =>
          refine ⟨?_, "Failed to execute query: " ++ ("no such table: " ++ t), ?_⟩ <;>
            simp [executeSqlQuery, engineRunAll, hl]
      | some tb =>
          refine ⟨?_, "Failed to execute query: " ++
              "SQLITE_READONLY: attempt to write a readonly database", ?_⟩ <;>
            simp [executeSqlQuery, engineRunAll, hl]

/-- C5 witness: a DROP against a one-table read-only file is rejected and
the file is unchanged. -/
theorem sandbox_rejects_mutations_witness :
    (executeSqlQuery [("users", ⟨[idColumn], []⟩)] (.drop "users")).1 =
      [("users", ⟨[idColumn], []⟩)] ∧
    ∃ msg, (executeSqlQuery [("users", ⟨[idColumn], []⟩)] (.drop "users")).2 =
      .error msg :=
  sandbox_rejects_mutations [("users", ⟨[idColumn], []⟩)] (.drop "users") rfl

theorem not_mem_removeF (p : String) (fs : FS) : p ∉ removeF p fs := by
  simp [removeF]

theorem not_mem_removeF_of (p r : String) (fs : FS) (h : p ∉ fs) : p ∉ removeF r fs :=
  fun hm => h (List.mem_of_mem_filter hm)

/-- C3 counterexample: two failure runs that leave their scratch files
behind, contradicting the claim that they no longer exist on every outcome.
`processJsonFile` on unparseable bytes returns its failure result while the
written source file still exists, and `executeQuery` with a statement that
fails at prepare (`DROP` of a table absent from the downloaded file)
rethrows while the downloaded database copy still exists. -/
theorem scratch_cleanup_counterexample :
    (processJsonFile ⟨"a.json", ⟨.error "Unexpected token", .error "not csv"⟩⟩
        "u0" none (.ok (some "k")) []).result.error =
      some "Failed to process JSON file: Unexpected token" ∧
    (processJsonFile ⟨"a.json", ⟨.error "Unexpected token", .error "not csv"⟩⟩
        "u0" none (.ok (some "k")) []).fs = ["uploads/temp/u0_a.json"] ∧
    (executeQuery "d" (.drop "t") "u" (some ⟨"d", "k", "u"⟩) [] true true []).result =
      .error "Failed to execute query: no such table: t" ∧
    (executeQuery "d" (.drop "t") "u" (some ⟨"d", "k", "u"⟩) [] true true []).fs =
      ["uploads/temp/d.db"] :=
  ⟨rfl, rfl, rfl, rfl⟩

/-- C3 (amended): scratch files are removed on the success path of each
materializer and sandbox operation — when `processJsonFile`/`processCsvFile`
return a key, the written source file and the produced database file no
longer exist, and when `executeQuery`/`processMessage` return without error
the downloaded copy no longer exists.  (The amendment relative to the
original claim: on failure paths reached after a scratch file was created —
unparseable payload, ingestion rejection, upload throw, rejected query,
extraction throw — the function returns with the scratch file still on
disk; the separate `clearTempFiles` janitor reaps those leftovers.) -/
theorem scratch_cleanup_on_success :
    (∀ (file : IFile) (uuid : String) (options : Option IJsonToSqliteOptions)
        (uploadOutcome : Except String (Option String)) (fs0 : FS),
      (processJsonFile file uuid options uploadOutcome fs0).result.key.isSome = true →
        pathJoin TEMP_DIR (uuid ++ "_" ++ file.name) ∉
          (processJsonFile file uuid options uploadOutcome fs0).fs ∧
        pathJoin TEMP_DIR (uuid ++ "_" ++ parseNameNoExt file.name ++ ".db") ∉
          (processJsonFile file uuid options uploadOutcome fs0).fs) ∧
    (∀ (file : IFile) (uuid : String) (options : ICsvToSqliteOptions)
        (uploadOutcome : Except String (Option String)) (fs0 : FS),
      (processCsvFile file uuid options uploadOutcome fs0).result.key.isSome = true →
        pathJoin TEMP_DIR (uuid ++ "_" ++ file.name) ∉
          (processCsvFile file uuid options uploadOutcome fs0).fs ∧
        pathJoin TEMP_DIR (uuid ++ "_" ++ parseNameNoExt file.name ++ ".db") ∉
          (processCsvFile file uuid options uploadOutcome fs0).fs) ∧
    (∀ (datasetId : String) (q : SqlQuery) (userId : String) (d : DatasetRec)
        (dbFile : DBState) (presignOk fetchOk : Bool) (fs0 : FS),
      (executeQuery datasetId q userId (some d) dbFile presignOk fetchOk fs0).result.isOk = true →
        downloadDatasetPath d ∉
          (executeQuery datasetId q userId (some d) dbFile presignOk fetchOk fs0).fs) ∧
    (∀ (chatId userId : String) (apiKeyPresent : Bool) (c : ChatRec) (d : DatasetRec)
        (presignOk fetchOk : Bool) (oracleReply : Except String String) (fs0 : FS),
      (processMessage chatId userId apiKeyPresent (some c) (some d)
          presignOk fetchOk oracleReply fs0).2.error = none →
        downloadDatasetPath d ∉
          (processMessage chatId userId apiKeyPresent (some c) (some d)
            presignOk fetchOk oracleReply fs0).1) := by
  refine ⟨?_, ?_, ?_, ?_⟩
  · intro file uuid options uploadOutcome fs0 h
    cases hp : file.data.jsonParsed with
    | error e => simp [processJsonFile, hp] at h
    | ok jsonData =>
        cases hq : (jsonToSqlite jsonData options).promise with
        | error e => simp [processJsonFile, hp, hq] at h
        | ok u =>
            cases hu : uploadOutcome with
            | error e => simp [processJsonFile, hp, hq, hu] at h
            | ok keyOpt =>
                cases keyOpt with
                | none => simp [processJsonFile, hp, hq, hu] at h
                | some k =>
                    refine ⟨?_, ?_⟩
                    · simp only [processJsonFile, hp, hq, hu]
                      exact not_mem_removeF_of _ _ _ (not_mem_removeF _ _)
                    · simp only [processJsonFile, hp, hq, hu]
                      exact not_mem_removeF _ _
  · intro file uuid options uploadOutcome fs0 h
    cases hp : file.data.csvParsed with
    | error e => simp [processCsvFile, hp] at h
    | ok rows =>
        cases hq : (csvToSqlite rows options).promise with
        | error e => simp [processCsvFile, hp, hq] at h
        | ok u =>
            cases hu : uploadOutcome with
            | error e => simp [processCsvFile, hp, hq, hu] at h
            | ok keyOpt =>
                cases keyOpt with
                | none => simp [processCsvFile, hp, hq, hu] at h
                | some k =>
                    refine ⟨?_, ?_⟩
                    · simp only [processCsvFile, hp, hq, hu]
                      exact not_mem_removeF_of _ _ _ (not_mem_removeF _ _)
                    · simp only [processCsvFile, hp, hq, hu]
                      exact not_mem_removeF _ _
  · intro datasetId q userId d dbFile presignOk fetchOk fs0 h
    by_cases hown : d.user_id = userId
    · cases presignOk with
      | false => simp [executeQuery, downloadDataset, hown, Except.isOk, Except.toBool] at h
      | true =>
          cases fetchOk with
          | false => simp [executeQuery, downloadDataset, hown, Except.isOk, Except.toBool] at h
          | true =>
              cases hr : (executeSqlQuery dbFile q).2 with
              | error e =>
                  simp [executeQuery, downloadDataset, hown, hr, Except.isOk, Except.toBool] at h
              | ok res =>
                  simp only [executeQuery, downloadDataset, hown, hr]
                  simp only [ne_eq, not_true_eq_false, if_false]
                  exact not_mem_removeF _ _
    · simp [executeQuery, hown, Except.isOk, Except.toBool] at h
  · intro chatId userId apiKeyPresent c d presignOk fetchOk oracleReply fs0 h
    cases apiKeyPresent with
    | false => simp [processMessage] at h
    | true =>
        by_cases hown : c.user_id = userId
        · cases presignOk with
          | false => simp [processMessage, downloadDataset, hown] at h
          | true =>
              cases fetchOk with
              | false => simp [processMessage, downloadDataset, hown] at h
              | true =>
                  cases ho : oracleReply with
                  | error e => simp [processMessage, downloadDataset, hown, ho] at h
                  | ok reply =>
                      cases he : extractSqlQueryAndTile reply with
                      | error u =>
                          simp [processMessage, downloadDataset, hown, ho, he] at h
                      | ok tq =>
                          simp only [processMessage, downloadDataset, hown, ho, he]
                          simp only [ne_eq, not_true_eq_false, if_false]
                          exact not_mem_removeF _ _
        · simp [processMessage, hown] at h

/-- C3 witness: one successful json materialization and one successful
sandbox query, with their scratch paths gone afterwards. -/
theorem scratch_cleanup_on_success_witness :
    "uploads/temp/u0_a.json" ∉
      (processJsonFile ⟨"a.json", ⟨.ok .vNull, .error "x"⟩⟩ "u0" none
        (.ok (some "k")) []).fs ∧
    "uploads/temp/u0_a.db" ∉
      (processJsonFile ⟨"a.json", ⟨.ok .vNull, .error "x"⟩⟩ "u0" none
        (.ok (some "k")) []).fs ∧
    "uploads/temp/d.db" ∉
      (executeQuery "d" (.selectAll "t") "u" (some ⟨"d", "k", "u"⟩)
        [("t", ⟨[idColumn], []⟩)] true true []).fs := by
  have h1 := scratch_cleanup_on_success.1 ⟨"a.json", ⟨.ok .vNull, .error "x"⟩⟩ "u0" none
    (.ok (some "k")) [] (by rfl)
  have h3 := scratch_cleanup_on_success.2.2.1 "d" (.selectAll "t") "u" ⟨"d", "k", "u"⟩
    [("t", ⟨[idColumn], []⟩)] true true [] (by rfl)
  exact ⟨h1.1, h1.2, h3⟩

/-- C4 counterexample: two distinct query-sandbox invocations against the
same dataset use the same local scratch file path — `downloadDataset`
derives the path from the dataset id alone and embeds no freshly minted
unique identifier. -/
theorem scratch_path_collision_counterexample :
    (⟨⟨"d1", "k", "u"⟩, 0⟩ : SandboxInvocation) ≠
      (⟨⟨"d1", "k", "u"⟩, 1⟩ : SandboxInvocation) ∧
    invocationScratchPath ⟨⟨"d1", "k", "u"⟩, 0⟩ =
      invocationScratchPath ⟨⟨"d1", "k", "u"⟩, 1⟩ :=
  ⟨by decide, rfl⟩

theorem stringDataAppend (a b : String) : (a ++ b).data = a.data ++ b.data := by
  cases a
  cases b
  rfl

theorem stringDataInj {a b : String} (h : a.data = b.data) : a = b := by
  cases a
  cases b
  exact congrArg String.mk h

theorem append_underscore_inj (u1 u2 n1 n2 : List Char)
    (h1 : '_' ∉ u1) (h2 : '_' ∉ u2)
    (heq : u1 ++ '_' :: n1 = u2 ++ '_' :: n2) : u1 = u2 ∧ n1 = n2 := by
  have key : ∀ (u n : List Char), '_' ∉ u →
      (u ++ '_' :: n).takeWhile (· ≠ '_') = u := by
    intro u n hu
    rw [takeWhile_append_sat _ u _ ?hall]
    · simp [List.takeWhile_cons]
    case hall =>
      intro c hc
      simp only [decide_eq_true_eq]
      intro he
      exact hu (he ▸ hc)
  have hu12 : u1 = u2 := by
    have k1 := key u1 n1 h1
    have k2 := key u2 n2 h2
    rw [heq, k2] at k1
    exact k1.symm
  subst hu12
  refine ⟨rfl, ?_⟩
  have hc := List.append_cancel_left heq
  injection hc

/-- C4 (amended): the materializer's scratch paths place the freshly minted
unique id before the first underscore of the file name, so any two
invocations with distinct minted ids (uuidv4 values contain no underscore)
use distinct scratch paths; the query sandbox's scratch path, however, is a
function of the dataset record alone, so any two invocations against the
same dataset share one scratch path.  (The amendment relative to the
original claim: the "freshly minted unique identifier" discipline holds for
the materializer's paths, not for the query sandbox's.) -/
theorem scratch_path_freshness (u1 u2 n1 n2 : String)
    (hne : u1 ≠ u2) (h1 : '_' ∉ u1.data) (h2 : '_' ∉ u2.data) :
    pathJoin TEMP_DIR (u1 ++ "_" ++ n1) ≠ pathJoin TEMP_DIR (u2 ++ "_" ++ n2) ∧
    (∀ inv1 inv2 : SandboxInvocation, inv1.dataset = inv2.dataset →
      invocationScratchPath inv1 = invocationScratchPath inv2) := by
  constructor
  · intro heq
    apply hne
    have hdata := congrArg String.data heq
    have hnorm : "uploads/temp".data ++ '/' :: (u1.data ++ '_' :: n1.data) =
        "uploads/temp".data ++ '/' :: (u2.data ++ '_' :: n2.data) := by
      have hs : "/".data = ['/'] := rfl
      have hu : "_".data = ['_'] := rfl
      simpa [pathJoin, TEMP_DIR, stringDataAppend, hs, hu, List.append_assoc]
        using hdata
    have hmid := List.append_cancel_left hnorm
    injection hmid with _ hmid2
    exact stringDataInj (append_underscore_inj u1.data u2.data n1.data n2.data
      h1 h2 hmid2).1
  · intro i1 i2 h
    simp [invocationScratchPath, h]

/-- C4 witness: distinct minted ids give distinct materializer paths, and
two invocations on one dataset share the sandbox path. -/
theorem scratch_path_freshness_witness :
    pathJoin TEMP_DIR ("a1" ++ "_" ++ "f.json") ≠
      pathJoin TEMP_DIR ("b2" ++ "_" ++ "f.json") ∧
    invocationScratchPath ⟨⟨"d", "k", "u"⟩, 0⟩ =
      invocationScratchPath ⟨⟨"d", "k", "u"⟩, 5⟩ :=
  ⟨(scratch_path_freshness "a1" "b2" "f.json" "f.json"
      (by decide) (by decide) (by decide)).1,
   (scratch_path_freshness "a1" "b2" "f.json" "f.json"
      (by decide) (by decide) (by decide)).2
     ⟨⟨"d", "k", "u"⟩, 0⟩ ⟨⟨"d", "k", "u"⟩, 5⟩ rfl⟩

theorem splitOnChar_ne_nil (sep : Char) (l : List Char) : splitOnChar sep l ≠ [] := by
  cases l with
  | nil => simp [splitOnChar]
  | cons c rest =>
      simp only [splitOnChar]
      split <;> simp

theorem splitOnChar_cons_pos (sep : Char) (rest : List Char) :
    splitOnChar sep (sep :: rest) = [] :: splitOnChar sep rest := by
  simp [splitOnChar]

theorem splitOnChar_cons_neg (sep c : Char) (rest : List Char) (hc : ¬ c = sep) :
    splitOnChar sep (c :: rest) =
      (c :: (splitOnChar sep rest).headD []) :: (splitOnChar sep rest).tail := by
  simp [splitOnChar, hc]

theorem joinChar_cons_cons (sep : Char) (x y : List Char) (t : List (List Char)) :
    joinChar sep (x :: y :: t) = x ++ sep :: joinChar sep (y :: t) := by
  simp [joinChar]

theorem joinChar_single (sep : Char) (x : List Char) :
    joinChar sep [x] = x := by
  simp [joinChar]

theorem splitOnChar_no_sep (sep : Char) (ys : List Char) (h : sep ∉ ys) :
    splitOnChar sep ys = [ys] := by
  induction ys with
  | nil => rfl
  | cons c rest ih =>
      have hc : ¬ c = sep := fun he => h (by simp [he])
      have hr := ih (fun hm => h (by simp [hm]))
      simp [splitOnChar, hc, hr]

theorem splitOnChar_first_sep (sep : Char) (xs ys : List Char) (h : sep ∉ xs) :
    splitOnChar sep (xs ++ sep :: ys) = xs :: splitOnChar sep ys := by
  induction xs with
  | nil => simp [splitOnChar]
  | cons c xs' ih =>
      have hc : ¬ c = sep := fun he => h (by simp [he])
      have hx := ih (fun hm => h (by simp [hm]))
      simp [splitOnChar, hc, hx]

theorem splitOnChar_length_two (sep : Char) (xs ys : List Char) :
    2 ≤ (splitOnChar sep (xs ++ sep :: ys)).length := by
  induction xs with
  | nil =>
      rw [List.nil_append, splitOnChar_cons_pos]
      cases h : splitOnChar sep ys with
      | nil => exact absurd h (splitOnChar_ne_nil sep ys)
      | cons a t => simp
  | cons c xs' ih =>
      have e : (c :: xs') ++ sep :: ys = c :: (xs' ++ sep :: ys) := rfl
      rw [e]
      by_cases hc : c = sep
      · subst hc
        rw [splitOnChar_cons_pos]
        cases h : splitOnChar c (xs' ++ c :: ys) with
        | nil => exact absurd h (splitOnChar_ne_nil c _)
        | cons a t => simp
      · rw [splitOnChar_cons_neg sep c _ hc]
        cases h : splitOnChar sep (xs' ++ sep :: ys) with
        | nil => exact absurd h (splitOnChar_ne_nil sep _)
        | cons a t =>
            rw [h] at ih
            simp only [List.headD_cons, List.tail_cons, List.length_cons] at ih ⊢
            omega

theorem getLastD_irrel {α : Type} (l : List α) (d1 d2 : α) (h : l ≠ []) :
    l.getLastD d1 = l.getLastD d2 := by
  cases l with
  | nil => exact absurd rfl h
  | cons a t => rw [List.getLastD_cons, List.getLastD_cons]

theorem splitOnChar_getLastD_after (sep : Char) (xs ys : List Char) (h : sep ∉ ys) :
    (splitOnChar sep (xs ++ sep :: ys)).getLastD [] = ys := by
  induction xs with
  | nil =>
      rw [List.nil_append, splitOnChar_cons_pos, List.getLastD_cons,
        splitOnChar_no_sep sep ys h]
      rfl
  | cons c xs' ih =>
      have e : (c :: xs') ++ sep :: ys = c :: (xs' ++ sep :: ys) := rfl
      rw [e]
      by_cases hc : c = sep
      · subst hc
        rw [splitOnChar_cons_pos, List.getLastD_cons]
        exact ih
      · rw [splitOnChar_cons_neg sep c _ hc]
        cases hr : splitOnChar sep (xs' ++ sep :: ys) with
        | nil => exact absurd hr (splitOnChar_ne_nil sep _)
        | cons rh rt =>
            have hlen := splitOnChar_length_two sep xs' ys
            rw [hr] at hlen
            have hrt : rt ≠ [] := by
              cases rt with
              | nil => simp at hlen
              | cons x xt => simp
            simp only [List.headD_cons, List.tail_cons]
            rw [List.getLastD_cons]
            rw [hr, List.getLastD_cons] at ih
            rw [getLastD_irrel rt (c :: rh) rh hrt]
            exact ih

theorem joinChar_splitOnChar (sep : Char) (l : List Char) :
    joinChar sep (splitOnChar sep l) = l := by
  induction l with
  | nil => rfl
  | cons c rest ih =>
      by_cases hc : c = sep
      · subst hc
        rw [splitOnChar_cons_pos]
        cases hr : splitOnChar c rest with
        | nil => exact absurd hr (splitOnChar_ne_nil c rest)
        | cons rh rt =>
            rw [joinChar_cons_cons, List.nil_append, ← hr, ih]
      · rw [splitOnChar_cons_neg sep c _ hc]
        cases hr : splitOnChar sep rest with
        | nil => exact absurd hr (splitOnChar_ne_nil sep rest)
        | cons rh rt =>
            simp only [List.headD_cons, List.tail_cons]
            rw [hr] at ih
            cases rt with
            | nil =>
                rw [joinChar_single] at ih
                rw [joinChar_single, ih]
            | cons a t =>
                rw [joinChar_cons_cons] at ih
                rw [joinChar_cons_cons]
                have e2 : (c :: rh) ++ sep :: joinChar sep (a :: t) =
                    c :: (rh ++ sep :: joinChar sep (a :: t)) := rfl
                rw [e2, ih]

theorem string_mk_data (s : String) : String.mk s.data = s := by
  cases s
  rfl

/-- C10: the durable key of a private dataset has the form
`<privatePrefix><userId>/<uuid>_<name>`, and the name reconstruction of
`listUserDatasets` recovers the uploaded file name exactly — also when the
name itself contains underscores — for every minted uuid in uuidv4 format
(contains neither `_` nor `/`) and every file name free of the path
separator `/` (the upload boundary's `safeFileNames` sanitization strips
path separators before the name reaches the service). -/
theorem dataset_name_roundtrip (uuid userId fileName : String)
    (hu : '_' ∉ uuid.data) (hs : '/' ∉ uuid.data) (hn : '/' ∉ fileName.data) :
    uploadPrivateDatasetKey uuid userId fileName =
      privateDatasetRoot ++ userId ++ "/" ++ (uuid ++ "_" ++ fileName) ∧
    listUserDatasetsName (uploadPrivateDatasetKey uuid userId fileName) = fileName := by
  refine ⟨rfl, ?_⟩
  unfold listUserDatasetsName uploadPrivateDatasetKey privateDatasetRoot
  have h1 : "/".data = ['/'] := rfl
  have h2 : "_".data = ['_'] := rfl
  have hkey : ("private/datasets/" ++ userId ++ "/" ++ (uuid ++ "_" ++ fileName)).data =
      ("private/datasets/".data ++ userId.data) ++ '/' :: (uuid.data ++ '_' :: fileName.data) := by
    simp [stringDataAppend, h1, h2, List.append_assoc]
  rw [hkey]
  rw [splitOnChar_getLastD_after '/' _ _ ?hnin]
  case hnin =>
    intro hmem
    rcases List.mem_append.mp hmem with hm | hm
    · exact hs hm
    · rcases List.mem_cons.mp hm with hm | hm
      · exact absurd hm (by decide)
      · exact hn hm
  rw [splitOnChar_first_sep '_' _ _ hu]
  simp only [List.drop_succ_cons, List.drop_zero]
  rw [joinChar_splitOnChar]

/-- C10 witness: a uuidv4-shaped id and a file name containing underscores
and a space round-trip exactly. -/
theorem dataset_name_roundtrip_witness :
    listUserDatasetsName (uploadPrivateDatasetKey
      "123e4567-e89b-42d3-a456-426614174000" "u1" "my_data set_v2.csv") =
      "my_data set_v2.csv" :=
  (dataset_name_roundtrip "123e4567-e89b-42d3-a456-426614174000" "u1"
    "my_data set_v2.csv" (by decide) (by decide) (by decide)).2

end Datalyze
